import Mathlib

/-!
Shallow embedding of the `sgd` Go package (stochastic gradient descent).

Conventions used throughout this development:

* A finite `float64` value is embedded as a rational number `ℚ`; the arithmetic
  performed by the package (sums, products, quotients of small decimal
  constants) is modelled exactly, ignoring floating-point rounding.
* A `float64` value as seen by the driver loop, which must distinguish the IEEE
  special values, is embedded as the inductive type `F` below (NaN, signed
  infinity, or a finite rational).
* The library function `math.Sqrt` has no exact rational counterpart; it is
  embedded as an explicit function parameter `sq : ℚ → ℚ`, and every theorem
  that needs a property of the real square root states that property as a
  hypothesis on `sq` (each such property holds for the real square root).
* Go slices of `float64` are embedded as `List ℚ` (or `List F`); the in-place
  update loops of the package are embedded as pure functions returning the new
  contents of the buffers they write.
-/

namespace SGD

/-- Terminal status of an optimization run, mirroring the values of
`gonum/optimize.Status` used by the package. -/
inductive Status
  | NotTerminated
  | IterationLimit
  | StepConvergence
  | Failure
  deriving DecidableEq, Repr

/-- Embedding of a Go `float64` as the driver sees it: NaN, an infinity with a
sign (`pos = true` for `+Inf`), or a finite value represented as a rational. -/
inductive F
  | nan
  | inf (pos : Bool)
  | fin (x : ℚ)
  deriving DecidableEq, Repr

/-- Embedding of `math.IsNaN`. -/
def F.isNaN : F → Bool
  | .nan => true
  | _ => false

/-- Embedding of `math.IsInf(x, 0)`: true for an infinity of either sign. -/
def F.isInf : F → Bool
  | .inf _ => true
  | _ => false

/-- IEEE addition on embedded floats (overflow of finite values is not
modelled: finite + finite is finite). -/
def F.add : F → F → F
  | .nan, _ => .nan
  | .inf _, .nan => .nan
  | .fin _, .nan => .nan
  | .inf p, .inf q => if p = q then .inf p else .nan
  | .inf p, .fin _ => .inf p
  | .fin _, .inf q => .inf q
  | .fin a, .fin b => .fin (a + b)

/-- IEEE `<` on embedded floats: any comparison involving NaN is false. -/
def F.lt : F → F → Bool
  | .nan, _ => false
  | .inf _, .nan => false
  | .fin _, .nan => false
  | .inf p, .inf q => !p && q
  | .inf p, .fin _ => !p
  | .fin _, .inf q => q
  | .fin a, .fin b => decide (a < b)

/-- The finite value carried by an embedded float (0 for the special values;
only used on floats known to be finite). -/
def F.toQ : F → ℚ
  | .fin x => x
  | _ => 0

/-- Sum of squares of a vector, the quantity under the square root in
`floats.Norm(x, 2)`. -/
def sumSq (xs : List ℚ) : ℚ := (xs.map (fun x => x * x)).sum

/-- Embedding of `floats.Norm(x, 2)` on a finite vector: the square root
(modelled by `sq`) of the sum of squares. -/
def normQ (sq : ℚ → ℚ) (xs : List ℚ) : ℚ := sq (sumSq xs)

/-- Embedding of `floats.Norm(x, 2)` under IEEE semantics: NaN if any component
is NaN, `+Inf` if any component is infinite (and none is NaN), and otherwise
the square root of the sum of squares. -/
def normF (sq : ℚ → ℚ) (xs : List F) : F :=
  if xs.any F.isNaN then .nan
  else if xs.any F.isInf then .inf true
  else .fin (normQ sq (xs.map F.toQ))

/-- The `Settings` struct of the package: `Iterations` (a Go `int`) and
`StepTolerance` (a `float64`, finite in the model). -/
structure Settings where
  Iterations : ℤ
  StepTolerance : ℚ
  deriving DecidableEq, Repr

/-- Embedding of `defaultSettings`: `StepTolerance` is replaced by `1e-8`
exactly when it is zero. -/
def defaultSettings (set : Settings) : Settings :=
  if set.StepTolerance = 0 then { set with StepTolerance := 1 / 100000000 } else set

/-- Embedding of the `Problem` struct: dimensionality, dataset size, and the
two evaluation capabilities. `Func` returns the per-sample values it writes
into its destination slice; `Grad` returns the rows of the per-sample gradient
matrix it writes. Both are pure, as the specification requires of the external
collaborator. -/
structure ProblemM where
  Dim : ℕ
  Size : ℕ
  Func : List F → List ℕ → List ℚ
  Grad : List F → List ℕ → List (List ℚ)

/-- Embedding of an arbitrary `Batcher` implementation with internal state `β`:
`Init` builds the initial state from the dataset size, and `Batch` returns the
new state together with the produced index slice. -/
structure BatcherM (β : Type) where
  init : ℕ → β
  batch : β → β × List ℕ

/-- Embedding of an arbitrary `Stepper` implementation with internal state `σ`:
`Step` receives the current contents of the step buffer held by the driver and the
averaged gradient, and returns the new internal state together with the new
contents of the step buffer. -/
structure StepperM (σ : Type) where
  init : ℕ → σ
  step : σ → List F → List ℚ → σ × List F

/-- The mutable state of the driver loop in `SGD`: the iteration counter, the
parameter vector, the step buffer, and the stepper and batcher states. -/
structure LoopState (σ β : Type) where
  iter : ℤ
  params : List F
  step : List F
  ss : σ
  bs : β

/-- The averaged gradient computed by the driver: the per-sample gradient rows
are summed into a zero-filled accumulator of length `dim` and scaled by
`1/nData` (`floats.Add` in a loop followed by `floats.Scale`). -/
def avgGradOf (dim : ℕ) (rows : List (List ℚ)) (nData : ℕ) : List ℚ :=
  ((rows.foldl (fun acc r => List.zipWith (· + ·) acc r)
      (List.replicate dim (0 : ℚ))).map (fun x => 1 / (nData : ℚ) * x))

/-- One iteration of the `SGD` driver loop: the iteration-limit check, one
`Batch`/`Func`/`Grad` round, gradient averaging, one `Step` call, and the
divergence and convergence checks, in source order. Returns `.inl` with the
terminal status and the returned parameters when the loop breaks at this
iteration, and `.inr` with the next loop state otherwise. -/
def sgdIter {σ β : Type} (sq : ℚ → ℚ) (P : ProblemM) (B : BatcherM β)
    (S : StepperM σ) (set : Settings) (s : LoopState σ β) :
    (Status × List F) ⊕ LoopState σ β :=
  if set.Iterations ≠ 0 ∧ s.iter > set.Iterations then .inl (.IterationLimit, s.params)
  else
    let bb := B.batch s.bs
    let batch := bb.2
    let nData := batch.length
    let _dstFun := P.Func s.params batch
    let rows := P.Grad s.params batch
    let avgGrad := avgGradOf P.Dim rows nData
    let out := S.step s.ss s.step avgGrad
    let step1 := out.2
    let stepNorm := normF sq step1
    if stepNorm.isNaN || stepNorm.isInf then .inl (.Failure, s.params)
    else if stepNorm.lt (.fin set.StepTolerance) then .inl (.StepConvergence, s.params)
    else .inr { iter := s.iter + 1, params := List.zipWith F.add s.params step1,
                step := step1, ss := out.1, bs := bb.1 }

/-- The driver loop of `SGD`, with explicit fuel: `none` means the loop did not
terminate within `fuel` iterations (the Go loop is unbounded when
`Iterations = 0`). -/
def sgdLoop {σ β : Type} (sq : ℚ → ℚ) (P : ProblemM) (B : BatcherM β)
    (S : StepperM σ) (set : Settings) : ℕ → LoopState σ β → Option (Status × List F)
  | 0, _ => none
  | fuel + 1, s =>
    match sgdIter sq P B S set s with
    | .inl r => some r
    | .inr s2 => sgdLoop sq P B S set fuel s2

/-- Outcome of a call to `SGD`: a panic (zero dimension or zero size), loop
fuel exhaustion (the Go loop would still be running), or a normal return
carrying the `Result` fields and the returned `error` value. -/
inductive SGDOutcome
  | panicked
  | outOfFuel
  | ok (X : List F) (status : Status) (err : Option String)
  deriving DecidableEq, Repr

/-- Embedding of the `SGD` driver function. The second component of the result
is the final contents of the settings cell of the caller: the Go code copies
`*settings` into a local variable, applies `defaultSettings` to that copy, and
never assigns through the pointer, so the cell is returned as it came in. -/
def SGDRun {σ β : Type} (sq : ℚ → ℚ) (P : ProblemM) (B : BatcherM β)
    (S : StepperM σ) (settings : Option Settings) (fuel : ℕ) :
    SGDOutcome × Option Settings :=
  let set0 : Settings := match settings with
    | some s => s
    | none => { Iterations := 0, StepTolerance := 0 }
  if P.Dim = 0 then (.panicked, settings)
  else if P.Size = 0 then (.panicked, settings)
  else
    let bs0 := B.init P.Size
    let ss0 := S.init P.Dim
    let set := defaultSettings set0
    let s0 : LoopState σ β :=
      { iter := 0, params := List.replicate P.Dim (F.fin 0),
        step := List.replicate P.Dim (F.fin 0), ss := ss0, bs := bs0 }
    match sgdLoop sq P B S set fuel s0 with
    | none => (.outOfFuel, settings)
    | some (st, x) => (.ok x st none, settings)

/-- The `Adadelta` struct: hyperparameters `Smooth`, `Momen` and the internal
accumulators `s` (decayed squared steps) and `g` (decayed squared gradients). -/
structure Adadelta where
  Smooth : ℚ
  Momen : ℚ
  s : List ℚ
  g : List ℚ
  deriving DecidableEq, Repr

/-- Embedding of `Adadelta.Init`: defaults `Smooth` to `1e-8` and `Momen` to
`0.9` when zero, and zero-fills both accumulators to length `dim`. -/
def adadeltaInit (a : Adadelta) (dim : ℕ) : Adadelta :=
  { Smooth := if a.Smooth = 0 then 1 / 100000000 else a.Smooth,
    Momen := if a.Momen = 0 then 9 / 10 else a.Momen,
    s := List.replicate dim 0,
    g := List.replicate dim 0 }

/-- The body of the `Adadelta.Step` loop, walking the `s` and `g` accumulators
in lockstep with the gradient and producing the new `s`, new `g`, and the step
vector (in that order). -/
def adadeltaLoop (Momen Smooth : ℚ) (sq : ℚ → ℚ) :
    List ℚ → List ℚ → List ℚ → List ℚ × List ℚ × List ℚ
  | ss, gs, [] => (ss, gs, [])
  | [], gs, _ :: _ => ([], gs, [])
  | s :: ss, [], _ :: _ => (s :: ss, [], [])
  | s :: ss, g :: gs, v :: vs =>
    let g1 := (1 - Momen) * v * v + Momen * g
    let st := -(sq (s + Smooth)) / sq (g1 + Smooth) * v
    let s1 := (1 - Momen) * st * st + Momen * s
    let r := adadeltaLoop Momen Smooth sq ss gs vs
    (s1 :: r.1, g1 :: r.2.1, st :: r.2.2)

/-- Embedding of `Adadelta.Step`. -/
def adadeltaStep (sq : ℚ → ℚ) (a : Adadelta) (grad : List ℚ) : Adadelta × List ℚ :=
  let r := adadeltaLoop a.Momen a.Smooth sq a.s a.g grad
  ({ a with s := r.1, g := r.2.1 }, r.2.2)

/-- The `Adagrad` struct: hyperparameters `Size`, `Smooth` and the accumulated
squared gradient `g`. -/
structure Adagrad where
  Size : ℚ
  Smooth : ℚ
  g : List ℚ
  deriving DecidableEq, Repr

/-- Embedding of `Adagrad.Init`: defaults `Size` to `0.01` and `Smooth` to
`1e-8` when zero, and zero-fills the accumulator to length `dim`. -/
def adagradInit (a : Adagrad) (dim : ℕ) : Adagrad :=
  { Size := if a.Size = 0 then 1 / 100 else a.Size,
    Smooth := if a.Smooth = 0 then 1 / 100000000 else a.Smooth,
    g := List.replicate dim 0 }

/-- Embedding of `Adagrad.Step` from `stepper.go` (the later revision):
`g[i] += v*v` and `step[i] = -Size*grad[i]/sqrt(g[i]+Smooth)`, overwriting the
step buffer. -/
def adagradStep (sq : ℚ → ℚ) (a : Adagrad) (grad : List ℚ) : Adagrad × List ℚ :=
  let g1 := List.zipWith (fun gi v => gi + v * v) a.g grad
  let st := List.zipWith (fun gi v => -a.Size * v / sq (gi + a.Smooth)) g1 grad
  ({ a with g := g1 }, st)

/-- Embedding of `Adagrad.Step` from the earlier source revision:
`g[i] += v*v` and `step[i] *= -Size*grad[i]/sqrt(g[i]+Smooth)`, compounding
with the incoming contents `stepIn` of the step buffer. -/
def adagradStepOld (sq : ℚ → ℚ) (a : Adagrad) (stepIn grad : List ℚ) :
    Adagrad × List ℚ :=
  let g1 := List.zipWith (fun gi v => gi + v * v) a.g grad
  let st := List.zipWith (fun s p => s * (-a.Size * p.2 / sq (p.1 + a.Smooth)))
    stepIn (g1.zip grad)
  ({ a with g := g1 }, st)

/-- The `Adam` struct: hyperparameters `Size`, `MeanMomen`, `VarMomen`,
`Smooth`, the time counter (a `float64` incremented by one per call, embedded
as `ℕ`), and the moment accumulators `m` and `nu`. -/
structure Adam where
  Size : ℚ
  MeanMomen : ℚ
  VarMomen : ℚ
  Smooth : ℚ
  time : ℕ
  m : List ℚ
  nu : List ℚ
  deriving DecidableEq, Repr

/-- Embedding of `Adam.Init`: defaults `Size` to `0.001`, `MeanMomen` to `0.9`,
`VarMomen` to `0.999` and `Smooth` to `1e-8` when zero, resets `time` and
zero-fills both accumulators to length `dim`. -/
def adamInit (a : Adam) (dim : ℕ) : Adam :=
  { Size := if a.Size = 0 then 1 / 1000 else a.Size,
    MeanMomen := if a.MeanMomen = 0 then 9 / 10 else a.MeanMomen,
    VarMomen := if a.VarMomen = 0 then 999 / 1000 else a.VarMomen,
    Smooth := if a.Smooth = 0 then 1 / 100000000 else a.Smooth,
    time := 0,
    m := List.replicate dim 0,
    nu := List.replicate dim 0 }

/-- The body of the `Adam.Step` loop from `stepper.go`, walking `m` and `nu` in
lockstep with the gradient (at time `t`, after the increment) and producing the
new `m`, new `nu`, and the step vector. The source writes
`step[i] = -Size / (sqrt(nuhat) + Smooth) * mhat`. -/
def adamLoop (Size g1 g2 eps : ℚ) (t : ℕ) (sq : ℚ → ℚ) :
    List ℚ → List ℚ → List ℚ → List ℚ × List ℚ × List ℚ
  | ms, ns, [] => (ms, ns, [])
  | [], ns, _ :: _ => ([], ns, [])
  | m :: ms, [], _ :: _ => (m :: ms, [], [])
  | m :: ms, n :: ns, v :: vs =>
    let m1 := g1 * m + (1 - g1) * v
    let n1 := g2 * n + (1 - g2) * v * v
    let mhat := m1 / (1 - g1 ^ t)
    let nuhat := n1 / (1 - g2 ^ t)
    let st := -Size / (sq nuhat + eps) * mhat
    let r := adamLoop Size g1 g2 eps t sq ms ns vs
    (m1 :: r.1, n1 :: r.2.1, st :: r.2.2)

/-- Embedding of `Adam.Step` from `stepper.go`: increments the time counter and
runs the per-index loop. -/
def adamStep (sq : ℚ → ℚ) (a : Adam) (grad : List ℚ) : Adam × List ℚ :=
  let t1 := a.time + 1
  let r := adamLoop a.Size a.MeanMomen a.VarMomen a.Smooth t1 sq a.m a.nu grad
  ({ a with time := t1, m := r.1, nu := r.2.1 }, r.2.2)

/-- The Adam per-index update exactly as the specification words it: update
the moments, then write `step_i = -a * (m_i/(1-γ1^t)) / (sqrt(ν_i/(1-γ2^t)) + ϵ)`
using the updated moments. Stated for comparison against `adamLoop`. -/
def adamSpecLoop (Size g1 g2 eps : ℚ) (t : ℕ) (sq : ℚ → ℚ) :
    List ℚ → List ℚ → List ℚ → List ℚ × List ℚ × List ℚ
  | ms, ns, [] => (ms, ns, [])
  | [], ns, _ :: _ => ([], ns, [])
  | m :: ms, [], _ :: _ => (m :: ms, [], [])
  | m :: ms, n :: ns, v :: vs =>
    let m1 := g1 * m + (1 - g1) * v
    let n1 := g2 * n + (1 - g2) * v * v
    let st := -Size * (m1 / (1 - g1 ^ t)) / (sq (n1 / (1 - g2 ^ t)) + eps)
    let r := adamSpecLoop Size g1 g2 eps t sq ms ns vs
    (m1 :: r.1, n1 :: r.2.1, st :: r.2.2)

/-- The claim-side counterpart of `adamStep`, built on `adamSpecLoop`. -/
def adamStepSpec (sq : ℚ → ℚ) (a : Adam) (grad : List ℚ) : Adam × List ℚ :=
  let t1 := a.time + 1
  let r := adamSpecLoop a.Size a.MeanMomen a.VarMomen a.Smooth t1 sq a.m a.nu grad
  ({ a with time := t1, m := r.1, nu := r.2.1 }, r.2.2)

/-- The `Anneal` struct from `stepper.go`: hyperparameters `Size`, `Offset` and
the internal `time`, `size`, `offset` fields set by `Init`. -/
structure Anneal where
  Size : ℚ
  Offset : ℚ
  time : ℚ
  size : ℚ
  offset : ℚ
  deriving DecidableEq, Repr

/-- Embedding of `Anneal.Init`: resets `time`, copies `Size` and `Offset` into
the internal fields, defaulting each to `1` when zero. -/
def annealInit (a : Anneal) (_dim : ℕ) : Anneal :=
  { a with time := 0,
           size := if a.Size = 0 then 1 else a.Size,
           offset := if a.Offset = 0 then 1 else a.Offset }

/-- Embedding of `Anneal.Step`: `eta = size/(offset+time)`, the step is the
gradient scaled by `-eta`, and `time` is incremented. -/
def annealStep (a : Anneal) (grad : List ℚ) : Anneal × List ℚ :=
  let eta := a.size / (a.offset + a.time)
  ({ a with time := a.time + 1 }, grad.map (fun g => -eta * g))

/-- Iterated application of `annealStep` (state only), feeding one gradient per
call, as the driver does. -/
def annealRun (st : Anneal) (grads : List (List ℚ)) : Anneal :=
  grads.foldl (fun s g => (annealStep s g).1) st

/-- The `Momentum` struct from `stepper.go`: hyperparameters `Size`, `Offset`,
`Momen` and the internal `time`, `size`, `offset`, `nu` fields. -/
structure Momentum where
  Size : ℚ
  Offset : ℚ
  Momen : ℚ
  time : ℚ
  size : ℚ
  offset : ℚ
  nu : List ℚ
  deriving DecidableEq, Repr

/-- Embedding of `Momentum.Init`: resets `time`, copies `Size` and `Offset`
(defaulting each to `1` when zero), defaults `Momen` to `0.9` when zero, and
zero-fills the velocity. -/
def momentumInit (m : Momentum) (dim : ℕ) : Momentum :=
  { m with time := 0,
           size := if m.Size = 0 then 1 else m.Size,
           offset := if m.Offset = 0 then 1 else m.Offset,
           Momen := if m.Momen = 0 then 9 / 10 else m.Momen,
           nu := List.replicate dim 0 }

/-- Embedding of `Momentum.Step`: `eta = size/(offset+time)`,
`nu[i] = Momen*nu[i] - eta*g`, the step buffer receives a copy of `nu`, and
`time` is incremented. -/
def momentumStep (m : Momentum) (grad : List ℚ) : Momentum × List ℚ :=
  let eta := m.size / (m.offset + m.time)
  let nu1 := List.zipWith (fun n g => m.Momen * n - eta * g) m.nu grad
  ({ m with nu := nu1, time := m.time + 1 }, nu1)

/-- The `Nesterov` struct from `stepper.go`: hyperparameter `Beta` and the
internal `vPrev`, `v`, `t` fields. -/
structure Nesterov where
  Beta : ℚ
  vPrev : List ℚ
  v : List ℚ
  t : ℚ
  deriving DecidableEq, Repr

/-- Embedding of `Nesterov.Init`: defaults `Beta` to `0.01` when zero,
zero-fills both velocity buffers, and resets `t`. -/
def nesterovInit (n : Nesterov) (dim : ℕ) : Nesterov :=
  { Beta := if n.Beta = 0 then 1 / 100 else n.Beta,
    vPrev := List.replicate dim 0,
    v := List.replicate dim 0,
    t := 0 }

/-- Embedding of `Nesterov.Step`: `t++`, `mu = 1 - 3/(t+5)`, `vPrev` receives
the old `v`, `v[i] = mu*vPrev[i] - Beta*g`, and
`step[i] = -mu*vPrev[i] + (1+mu)*v[i]`. -/
def nesterovStep (n : Nesterov) (grad : List ℚ) : Nesterov × List ℚ :=
  let t1 := n.t + 1
  let mu := 1 - 3 / (t1 + 5)
  let vPrev1 := n.v
  let v1 := List.zipWith (fun vp g => mu * vp - n.Beta * g) vPrev1 grad
  let st := List.zipWith (fun vp vi => -mu * vp + (1 + mu) * vi) vPrev1 v1
  ({ n with t := t1, vPrev := vPrev1, v := v1 }, st)

/-- The `RMSProp` struct: hyperparameters `Smooth`, `Momen`, `Rate` and the
internal `s` (step memory) and `g` (decayed squared gradients) buffers. -/
structure RMSProp where
  Smooth : ℚ
  Momen : ℚ
  Rate : ℚ
  s : List ℚ
  g : List ℚ
  deriving DecidableEq, Repr

/-- Embedding of `RMSProp.Init`: defaults `Smooth` to `1e-8`, `Momen` to `0.9`
and `Rate` to `0.001` when zero, and zero-fills both buffers. -/
def rmsPropInit (r : RMSProp) (dim : ℕ) : RMSProp :=
  { Smooth := if r.Smooth = 0 then 1 / 100000000 else r.Smooth,
    Momen := if r.Momen = 0 then 9 / 10 else r.Momen,
    Rate := if r.Rate = 0 then 1 / 1000 else r.Rate,
    s := List.replicate dim 0,
    g := List.replicate dim 0 }

/-- Embedding of `RMSProp.Step` from `stepper.go`:
`g[i] = Momen*g[i] + (1-Momen)*v*v`, `s[i] = -v*Rate/sqrt(g[i]+Smooth)`, and
the step buffer receives a copy of `s`. -/
def rmsPropStep (sq : ℚ → ℚ) (r : RMSProp) (grad : List ℚ) : RMSProp × List ℚ :=
  let gNew := List.zipWith (fun gi v => r.Momen * gi + (1 - r.Momen) * v * v) r.g grad
  let sNew := List.zipWith (fun gi v => -v * r.Rate / sq (gi + r.Smooth)) gNew grad
  ({ r with g := gNew, s := sNew }, sNew)

/-- The `RandomBatch` struct: minibatch size, the replacement flag, and the
internal `nData` and `idxs` fields (the random source is supplied per call, see
`randomBatchBatch`). -/
structure RandomBatch where
  Size : ℕ
  Replacement : Bool
  nData : ℕ
  idxs : List ℕ
  deriving DecidableEq, Repr

/-- Embedding of `RandomBatch.Init`: records the dataset size and allocates the
zero-filled index buffer of length `Size`. -/
def randomBatchInit (r : RandomBatch) (nSamples : ℕ) : RandomBatch :=
  { r with nData := nSamples, idxs := List.replicate r.Size 0 }

/-- Modelled from the spec: `sampleuv.WithoutReplacement` is external gonum
code, not part of this repository. Per its documented contract it fills the
`k`-element buffer with a uniformly random size-`k` sample of `[0, n)` drawn
without replacement; the randomness is modelled by the permutation of
`[0, n)` that the random source induces, and the sample is its first `k`
elements. -/
def withoutReplacement (k : ℕ) (perm : List ℕ) : List ℕ :=
  perm.take k

/-- Embedding of `RandomBatch.Batch`. `draws` models the successive values of
the successive `Intn(nData)` calls of the source in the with-replacement branch (reduced
modulo `nData` to reflect the contract of `Intn`); `perm` models the permutation
induced by the source in the without-replacement branch. -/
def randomBatchBatch (r : RandomBatch) (draws : ℕ → ℕ) (perm : List ℕ) :
    RandomBatch × List ℕ :=
  let idxs1 :=
    if r.Replacement then (List.range r.idxs.length).map (fun i => draws i % r.nData)
    else withoutReplacement r.idxs.length perm
  ({ r with idxs := idxs1 }, idxs1)

/-- Iterated `RandomBatch.Batch` calls (state only): each call consumes one
pair of randomness models — the `Intn` draws and the induced permutation for
that call — and leaves the batcher in the state the next call sees. -/
def randomBatchRun (r : RandomBatch) (calls : List ((ℕ → ℕ) × List ℕ)) :
    RandomBatch :=
  calls.foldl (fun s c => (randomBatchBatch s c.1 c.2).1) r

/-- A constant problem used to exercise the driver: dimension 1, dataset size
1, zero function values and zero gradient rows. -/
def constProblem : ProblemM :=
  { Dim := 1, Size := 1,
    Func := fun _ b => b.map (fun _ => 0),
    Grad := fun _ b => b.map (fun _ => [0]) }

/-- A trivial batcher whose every batch is the single index 0. -/
def constBatcher : BatcherM Unit :=
  { init := fun _ => (), batch := fun _ => ((), [0]) }

/-- A stepper whose step is constantly the one-dimensional vector `[1]`. -/
def oneStepper : StepperM Unit :=
  { init := fun _ => (), step := fun _ _ _ => ((), [F.fin 1]) }

/-- A stepper whose every output contains NaN. -/
def nanStepper : StepperM Unit :=
  { init := fun _ => (), step := fun _ _ _ => ((), [F.nan]) }

/-- Helper: zipping two constant lists of equal length is a constant list. -/
theorem zipWith_replicate_self {α β γ : Type} (f : α → β → γ) (n : ℕ) (a : α) (b : β) :
    List.zipWith f (List.replicate n a) (List.replicate n b) = List.replicate n (f a b) := by
  induction n with
  | zero => rfl
  | succ n ih => simp [List.replicate_succ, ih]

/-- Helper: the sum of squares of the zero vector is zero. -/
theorem sumSq_replicate_zero (d : ℕ) : sumSq (List.replicate d (0 : ℚ)) = 0 := by
  simp [sumSq]

/-- Helper: a sum of squares is nonnegative. -/
theorem sumSq_nonneg (xs : List ℚ) : 0 ≤ sumSq xs := by
  refine List.sum_nonneg ?_
  intro x hx
  rcases List.mem_map.1 hx with ⟨y, _, rfl⟩
  exact mul_self_nonneg y

/-- Helper: the modelled Euclidean norm of the zero vector is under the default
tolerance, provided the square-root model sends 0 to 0. -/
theorem normQ_replicate_zero (sq : ℚ → ℚ) (hsq : sq 0 = 0) (d : ℕ) :
    normQ sq (List.replicate d (0 : ℚ)) < 1 / 100000000 := by
  unfold normQ
  rw [sumSq_replicate_zero, hsq]
  norm_num

/-- Helper: the Adadelta per-index loop maps zero state and zero gradient to
zero state and zero step. -/
theorem adadeltaLoop_zero (M S : ℚ) (sq : ℚ → ℚ) (d : ℕ) :
    adadeltaLoop M S sq (List.replicate d 0) (List.replicate d 0) (List.replicate d 0) =
      (List.replicate d 0, List.replicate d 0, List.replicate d 0) := by
  induction d with
  | zero => rfl
  | succ d ih => simp [List.replicate_succ, adadeltaLoop, ih]

/-- Helper: the Adam per-index loop maps zero moments and zero gradient to zero
moments and zero step. -/
theorem adamLoop_zero (Size g1 g2 eps : ℚ) (t : ℕ) (sq : ℚ → ℚ) (d : ℕ) :
    adamLoop Size g1 g2 eps t sq (List.replicate d 0) (List.replicate d 0)
      (List.replicate d 0) =
      (List.replicate d 0, List.replicate d 0, List.replicate d 0) := by
  induction d with
  | zero => rfl
  | succ d ih => simp [List.replicate_succ, adamLoop, ih]

/-- Helper: the Adam source loop and the specification-worded loop agree. -/
theorem adamLoop_eq_specLoop (Size g1 g2 eps : ℚ) (t : ℕ) (sq : ℚ → ℚ) :
    ∀ (ms ns vs : List ℚ), adamLoop Size g1 g2 eps t sq ms ns vs =
      adamSpecLoop Size g1 g2 eps t sq ms ns vs := by
  intro ms ns vs
  induction vs generalizing ms ns with
  | nil => cases ms <;> cases ns <;> rfl
  | cons v vs ih =>
    cases ms with
    | nil => rfl
    | cons m ms =>
      cases ns with
      | nil => rfl
      | cons n ns =>
        simp only [adamLoop, adamSpecLoop, ih, Prod.mk.injEq, List.cons.injEq,
          true_and, and_true]
        ring

/-- Helper: fields of an `Anneal` state after a run: `time` advances by the
number of steps taken and the other fields are untouched. -/
theorem annealRun_fields (gs : List (List ℚ)) : ∀ (st : Anneal),
    annealRun st gs = { st with time := st.time + (gs.length : ℚ) } := by
  induction gs with
  | nil => intro st; simp [annealRun]
  | cons g gs ih =>
    intro st
    have h1 : annealRun st (g :: gs) = annealRun (annealStep st g).1 gs := rfl
    rw [h1, ih]
    simp [annealStep]
    ring

/-- Helper: the compounding `step *=` loop of the earlier Adagrad revision is
the elementwise product of the incoming buffer with the assignments of the
later revision. -/
theorem zipWith_mul_pairs (A S : ℚ) (sq : ℚ → ℚ) : ∀ (sIn l1 l2 : List ℚ),
    List.zipWith (fun s p => s * (-A * p.2 / sq (p.1 + S))) sIn (l1.zip l2) =
      List.zipWith (fun x y => x * y) sIn
        (List.zipWith (fun gi v => -A * v / sq (gi + S)) l1 l2) := by
  intro sIn
  induction sIn with
  | nil => simp
  | cons s sIn ih =>
    intro l1 l2
    cases l1 with
    | nil => simp
    | cons a l1 =>
      cases l2 with
      | nil => simp
      | cons b l2 => simp only [List.zip_cons_cons, List.zipWith_cons_cons, ih]

/-- C3: The two Adagrad `Step` implementations across the two source revisions
compute divergent update formulas: in the earlier revision
`step[i] *= -Size*grad[i]/sqrt(G+eps)` compounds with the incoming contents of
the step buffer (it always equals the elementwise product of the incoming
buffer with the step of the later revision), so for some incoming step-buffer
contents (here `[2]`) and some nonzero gradient (here `[1]`) the two revisions
write different step vectors: they are not extensionally equal. Stated for any
square-root model with the true value at 4. -/
theorem adagrad_revisions_diverge (sq : ℚ → ℚ) (hsq : sq 4 = 2) :
    (∀ (a : Adagrad) (stepIn grad : List ℚ),
        (adagradStepOld sq a stepIn grad).1 = (adagradStep sq a grad).1 ∧
        (adagradStepOld sq a stepIn grad).2 =
          List.zipWith (fun x y => x * y) stepIn (adagradStep sq a grad).2) ∧
    (adagradStepOld sq ⟨1, 3, [0]⟩ [2] [1]).2 ≠ (adagradStep sq ⟨1, 3, [0]⟩ [1]).2 := by
  constructor
  · intro a stepIn grad
    exact ⟨rfl, zipWith_mul_pairs a.Size a.Smooth sq stepIn _ grad⟩
  · simp only [adagradStep, adagradStepOld]
    norm_num [hsq]

/-- Witness for C3: the two revisions differ at a concrete input, under a
concrete square-root model that is exact at the only point used. -/
theorem adagrad_revisions_diverge_witness :
    (adagradStepOld (fun x => if x = 4 then 2 else 0) ⟨1, 3, [0]⟩ [2] [1]).2 ≠
      (adagradStep (fun x => if x = 4 then 2 else 0) ⟨1, 3, [0]⟩ [1]).2 :=
  (adagrad_revisions_diverge (fun x => if x = 4 then 2 else 0) (by norm_num)).2

/-- C5: On the t-th call (t counted from 1) after `Init(dim)`, the Adam stepper
updates `m_i` to `γ1*m_i + (1-γ1)*g_i` and `ν_i` to `γ2*ν_i + (1-γ2)*g_i²`,
then writes `step_i = -a * (m_i/(1-γ1^t)) / (sqrt(ν_i/(1-γ2^t)) + ϵ)` (the
statement: the source step equals the claim-worded `adamStepSpec`, and the time
counter advances by one per call), with defaults a=0.001, γ1=0.9, γ2=0.999,
ϵ=1e-8 applied exactly when the corresponding field is zero at `Init`. -/
theorem adam_step_formula :
    (∀ (sq : ℚ → ℚ) (a : Adam) (grad : List ℚ),
        adamStep sq a grad = adamStepSpec sq a grad ∧
        (adamStep sq a grad).1.time = a.time + 1) ∧
    (∀ (a : Adam) (dim : ℕ),
        (adamInit a dim).Size = (if a.Size = 0 then 1 / 1000 else a.Size) ∧
        (adamInit a dim).MeanMomen = (if a.MeanMomen = 0 then 9 / 10 else a.MeanMomen) ∧
        (adamInit a dim).VarMomen = (if a.VarMomen = 0 then 999 / 1000 else a.VarMomen) ∧
        (adamInit a dim).Smooth = (if a.Smooth = 0 then 1 / 100000000 else a.Smooth) ∧
        (adamInit a dim).time = 0 ∧
        (adamInit a dim).m = List.replicate dim 0 ∧
        (adamInit a dim).nu = List.replicate dim 0) := by
  constructor
  · intro sq a grad
    constructor
    · simp only [adamStep, adamStepSpec, adamLoop_eq_specLoop]
    · rfl
  · intro a dim
    exact ⟨rfl, rfl, rfl, rfl, rfl, rfl, rfl⟩

/-- C6: For the Anneal stepper with `Size=1` and `Offset=1` (first block) or
left at their zero defaults (second block) after `Init`, fed the constant
gradient `[1,1]` in dimension 2, the step written on call 0 is `[-1,-1]`, on
call 1 is `[-0.5,-0.5]`, and on call 2 is `[-1/3,-1/3]`; in general (third
block) the learning rate on call `t` is `a/(b+t)`. -/
theorem anneal_schedule :
    ((annealStep (annealInit ⟨1, 1, 0, 0, 0⟩ 2) [1, 1]).2 = [-1, -1] ∧
     (annealStep (annealStep (annealInit ⟨1, 1, 0, 0, 0⟩ 2) [1, 1]).1 [1, 1]).2 =
       [-(1 / 2), -(1 / 2)] ∧
     (annealStep (annealStep (annealStep (annealInit ⟨1, 1, 0, 0, 0⟩ 2) [1, 1]).1
       [1, 1]).1 [1, 1]).2 = [-(1 / 3), -(1 / 3)]) ∧
    ((annealStep (annealInit ⟨0, 0, 0, 0, 0⟩ 2) [1, 1]).2 = [-1, -1] ∧
     (annealStep (annealStep (annealInit ⟨0, 0, 0, 0, 0⟩ 2) [1, 1]).1 [1, 1]).2 =
       [-(1 / 2), -(1 / 2)] ∧
     (annealStep (annealStep (annealStep (annealInit ⟨0, 0, 0, 0, 0⟩ 2) [1, 1]).1
       [1, 1]).1 [1, 1]).2 = [-(1 / 3), -(1 / 3)]) ∧
    (∀ (a b : ℚ) (d : ℕ) (gs : List (List ℚ)) (g : List ℚ), a ≠ 0 → b ≠ 0 →
      (annealStep (annealRun (annealInit ⟨a, b, 0, 0, 0⟩ d) gs) g).2 =
        g.map (fun x => -(a / (b + (gs.length : ℚ))) * x)) := by
  refine ⟨⟨?_, ?_, ?_⟩, ⟨?_, ?_, ?_⟩, ?_⟩
  · norm_num [annealInit, annealStep]
  · norm_num [annealInit, annealStep]
  · norm_num [annealInit, annealStep]
  · norm_num [annealInit, annealStep]
  · norm_num [annealInit, annealStep]
  · norm_num [annealInit, annealStep]
  · intro a b d gs g ha hb
    rw [annealRun_fields]
    simp [annealInit, annealStep, if_neg ha, if_neg hb]

/-- Witness for C6: the general learning-rate clause instantiated at
`a = b = 1` and `t = 0`. -/
theorem anneal_schedule_witness :
    (1 : ℚ) ≠ 0 ∧
    (annealStep (annealRun (annealInit ⟨1, 1, 0, 0, 0⟩ 1) []) [1]).2 =
      [1].map (fun x => -((1 : ℚ) / (1 + ((List.length ([] : List (List ℚ))) : ℚ))) * x) :=
  ⟨one_ne_zero, anneal_schedule.2.2 1 1 1 [] [1] one_ne_zero one_ne_zero⟩

/-- C7: For every one of the seven steppers (Anneal, Momentum, Nesterov,
Adagrad, Adadelta, Adam, RMSProp) with all hyperparameter fields left at zero
(so defaults apply) and a freshly `Init`-ed state of dimension `d`, the first
`Step` call with an all-zero gradient writes the all-zero step vector, whose
Euclidean norm is below the default `stepTolerance` of 1e-8 (for any
square-root model that is exact at zero). -/
theorem steppers_zero_gradient_small_step (sq : ℚ → ℚ) (hsq : sq 0 = 0) (d : ℕ) :
    ((annealStep (annealInit ⟨0, 0, 0, 0, 0⟩ d) (List.replicate d 0)).2 =
        List.replicate d 0 ∧
      normQ sq (annealStep (annealInit ⟨0, 0, 0, 0, 0⟩ d) (List.replicate d 0)).2 <
        1 / 100000000) ∧
    ((momentumStep (momentumInit ⟨0, 0, 0, 0, 0, 0, []⟩ d) (List.replicate d 0)).2 =
        List.replicate d 0 ∧
      normQ sq (momentumStep (momentumInit ⟨0, 0, 0, 0, 0, 0, []⟩ d)
          (List.replicate d 0)).2 < 1 / 100000000) ∧
    ((nesterovStep (nesterovInit ⟨0, [], [], 0⟩ d) (List.replicate d 0)).2 =
        List.replicate d 0 ∧
      normQ sq (nesterovStep (nesterovInit ⟨0, [], [], 0⟩ d) (List.replicate d 0)).2 <
        1 / 100000000) ∧
    ((adagradStep sq (adagradInit ⟨0, 0, []⟩ d) (List.replicate d 0)).2 =
        List.replicate d 0 ∧
      normQ sq (adagradStep sq (adagradInit ⟨0, 0, []⟩ d) (List.replicate d 0)).2 <
        1 / 100000000) ∧
    ((adadeltaStep sq (adadeltaInit ⟨0, 0, [], []⟩ d) (List.replicate d 0)).2 =
        List.replicate d 0 ∧
      normQ sq (adadeltaStep sq (adadeltaInit ⟨0, 0, [], []⟩ d) (List.replicate d 0)).2 <
        1 / 100000000) ∧
    ((adamStep sq (adamInit ⟨0, 0, 0, 0, 0, [], []⟩ d) (List.replicate d 0)).2 =
        List.replicate d 0 ∧
      normQ sq (adamStep sq (adamInit ⟨0, 0, 0, 0, 0, [], []⟩ d) (List.replicate d 0)).2 <
        1 / 100000000) ∧
    ((rmsPropStep sq (rmsPropInit ⟨0, 0, 0, [], []⟩ d) (List.replicate d 0)).2 =
        List.replicate d 0 ∧
      normQ sq (rmsPropStep sq (rmsPropInit ⟨0, 0, 0, [], []⟩ d) (List.replicate d 0)).2 <
        1 / 100000000) := by
  have hAnneal : (annealStep (annealInit ⟨0, 0, 0, 0, 0⟩ d) (List.replicate d 0)).2 =
      List.replicate d 0 := by
    simp [annealInit, annealStep, List.map_replicate]
  have hMomentum : (momentumStep (momentumInit ⟨0, 0, 0, 0, 0, 0, []⟩ d)
      (List.replicate d 0)).2 = List.replicate d 0 := by
    simp [momentumInit, momentumStep, zipWith_replicate_self]
  have hNesterov : (nesterovStep (nesterovInit ⟨0, [], [], 0⟩ d)
      (List.replicate d 0)).2 = List.replicate d 0 := by
    simp [nesterovInit, nesterovStep, zipWith_replicate_self]
  have hAdagrad : (adagradStep sq (adagradInit ⟨0, 0, []⟩ d)
      (List.replicate d 0)).2 = List.replicate d 0 := by
    simp [adagradInit, adagradStep, zipWith_replicate_self]
  have hAdadelta : (adadeltaStep sq (adadeltaInit ⟨0, 0, [], []⟩ d)
      (List.replicate d 0)).2 = List.replicate d 0 := by
    simp [adadeltaInit, adadeltaStep, adadeltaLoop_zero]
  have hAdam : (adamStep sq (adamInit ⟨0, 0, 0, 0, 0, [], []⟩ d)
      (List.replicate d 0)).2 = List.replicate d 0 := by
    simp [adamInit, adamStep, adamLoop_zero]
  have hRMSProp : (rmsPropStep sq (rmsPropInit ⟨0, 0, 0, [], []⟩ d)
      (List.replicate d 0)).2 = List.replicate d 0 := by
    simp [rmsPropInit, rmsPropStep, zipWith_replicate_self]
  refine ⟨⟨hAnneal, ?_⟩, ⟨hMomentum, ?_⟩, ⟨hNesterov, ?_⟩, ⟨hAdagrad, ?_⟩,
    ⟨hAdadelta, ?_⟩, ⟨hAdam, ?_⟩, ⟨hRMSProp, ?_⟩⟩
  · rw [hAnneal]; exact normQ_replicate_zero sq hsq d
  · rw [hMomentum]; exact normQ_replicate_zero sq hsq d
  · rw [hNesterov]; exact normQ_replicate_zero sq hsq d
  · rw [hAdagrad]; exact normQ_replicate_zero sq hsq d
  · rw [hAdadelta]; exact normQ_replicate_zero sq hsq d
  · rw [hAdam]; exact normQ_replicate_zero sq hsq d
  · rw [hRMSProp]; exact normQ_replicate_zero sq hsq d

/-- Witness for C7: the Anneal clause at dimension 2, with the square-root
model that is constantly zero (exact at the only point used). -/
theorem steppers_zero_gradient_small_step_witness :
    ((fun _ : ℚ => (0 : ℚ)) 0 = 0) ∧
    ((annealStep (annealInit ⟨0, 0, 0, 0, 0⟩ 2) (List.replicate 2 0)).2 =
        List.replicate 2 0 ∧
      normQ (fun _ => 0) (annealStep (annealInit ⟨0, 0, 0, 0, 0⟩ 2)
        (List.replicate 2 0)).2 < 1 / 100000000) :=
  ⟨rfl, (steppers_zero_gradient_small_step (fun _ => 0) rfl 2).1⟩

/-- Helper: the modelled IEEE comparison never places a step norm strictly
below a negative threshold, for any square-root model that is nonnegative on
nonnegative inputs. -/
theorem normF_lt_neg_false (sq : ℚ → ℚ) (hsq : ∀ x, 0 ≤ x → 0 ≤ sq x)
    (xs : List F) (tol : ℚ) (hneg : tol < 0) :
    (normF sq xs).lt (F.fin tol) = false := by
  unfold normF
  split_ifs with h1 h2
  · rfl
  · rfl
  · simp only [F.lt]
    apply decide_eq_false
    intro hlt
    have h0 : (0 : ℚ) ≤ normQ sq (xs.map F.toQ) := hsq _ (sumSq_nonneg _)
    linarith

/-- Helper: under a negative tolerance, a terminating driver iteration never
reports StepConvergence. -/
theorem sgdIter_inl_status {σ β : Type} (sq : ℚ → ℚ) (hsq : ∀ x, 0 ≤ x → 0 ≤ sq x)
    (P : ProblemM) (B : BatcherM β) (S : StepperM σ) (set : Settings)
    (hneg : set.StepTolerance < 0) (s : LoopState σ β) (r : Status × List F)
    (h : sgdIter sq P B S set s = Sum.inl r) : r.1 ≠ Status.StepConvergence := by
  simp only [sgdIter] at h
  split_ifs at h with hl hnan hconv
  · cases h
    simp
  · cases h
    simp
  · rw [normF_lt_neg_false sq hsq _ _ hneg] at hconv
    cases hconv

/-- Helper: under a negative tolerance, the driver loop never returns
StepConvergence, from any state and with any fuel. -/
theorem sgdLoop_no_stepConvergence {σ β : Type} (sq : ℚ → ℚ)
    (hsq : ∀ x, 0 ≤ x → 0 ≤ sq x) (P : ProblemM) (B : BatcherM β) (S : StepperM σ)
    (set : Settings) (hneg : set.StepTolerance < 0) :
    ∀ (fuel : ℕ) (s : LoopState σ β) (r : Status × List F),
      sgdLoop sq P B S set fuel s = some r → r.1 ≠ Status.StepConvergence := by
  intro fuel
  induction fuel with
  | zero => intro s r h; simp [sgdLoop] at h
  | succ fuel ih =>
    intro s r h
    simp only [sgdLoop] at h
    generalize hI : sgdIter sq P B S set s = I at h
    cases I with
    | inl r2 =>
      simp only [Option.some.injEq] at h
      exact h ▸ sgdIter_inl_status sq hsq P B S set hneg s r2 hI
    | inr s2 => exact ih s2 r h

/-- Helper: the shape of a normal return of `SGDRun`: the preconditions held,
the returned values come from the loop, the error is nil, and the settings
cell is handed back unchanged. -/
theorem SGDRun_ok {σ β : Type} (sq : ℚ → ℚ) (P : ProblemM) (B : BatcherM β)
    (S : StepperM σ) (settings : Option Settings) (fuel : ℕ) (X : List F)
    (st : Status) (err : Option String) (cell : Option Settings)
    (h : SGDRun sq P B S settings fuel = (SGDOutcome.ok X st err, cell)) :
    err = none ∧ cell = settings ∧
    sgdLoop sq P B S (defaultSettings (settings.getD ⟨0, 0⟩)) fuel
      ⟨0, List.replicate P.Dim (F.fin 0), List.replicate P.Dim (F.fin 0),
        S.init P.Dim, B.init P.Size⟩ = some (st, X) := by
  cases settings with
  | none =>
    simp only [SGDRun] at h
    split_ifs at h with hd hs
    · simp at h
    · simp at h
    · generalize hL : sgdLoop sq P B S (defaultSettings ⟨0, 0⟩) fuel
        ⟨0, List.replicate P.Dim (F.fin 0), List.replicate P.Dim (F.fin 0),
          S.init P.Dim, B.init P.Size⟩ = L at h
      cases L with
      | none => simp at h
      | some r =>
        cases r with
        | mk st2 X2 =>
          simp only [Prod.mk.injEq, SGDOutcome.ok.injEq] at h
          rcases h with ⟨⟨hX, hst, herr⟩, hcell⟩
          subst hX; subst hst; subst hcell
          exact ⟨herr.symm, rfl, hL⟩
  | some set =>
    simp only [SGDRun] at h
    split_ifs at h with hd hs
    · simp at h
    · simp at h
    · generalize hL : sgdLoop sq P B S (defaultSettings set) fuel
        ⟨0, List.replicate P.Dim (F.fin 0), List.replicate P.Dim (F.fin 0),
          S.init P.Dim, B.init P.Size⟩ = L at h
      cases L with
      | none => simp at h
      | some r =>
        cases r with
        | mk st2 X2 =>
          simp only [Prod.mk.injEq, SGDOutcome.ok.injEq] at h
          rcases h with ⟨⟨hX, hst, herr⟩, hcell⟩
          subst hX; subst hst; subst hcell
          exact ⟨herr.symm, rfl, hL⟩

/-- Helper: one unfolding of the driver loop when the iteration continues. -/
theorem sgdLoop_step {σ β : Type} (sq : ℚ → ℚ) (P : ProblemM) (B : BatcherM β)
    (S : StepperM σ) (set : Settings) (fuel : ℕ) (s s2 : LoopState σ β)
    (h : sgdIter sq P B S set s = Sum.inr s2) :
    sgdLoop sq P B S set (fuel + 1) s = sgdLoop sq P B S set fuel s2 := by
  simp [sgdLoop, h]

/-- Helper: one unfolding of the driver loop when the iteration terminates. -/
theorem sgdLoop_done {σ β : Type} (sq : ℚ → ℚ) (P : ProblemM) (B : BatcherM β)
    (S : StepperM σ) (set : Settings) (fuel : ℕ) (s : LoopState σ β)
    (r : Status × List F) (h : sgdIter sq P B S set s = Sum.inl r) :
    sgdLoop sq P B S set (fuel + 1) s = some r := by
  simp [sgdLoop, h]

/-- Helper: concrete evaluation of a demonstration run with `Iterations = 1`
and the constant unit step: the driver calls the stepper at iterations 0 and 1,
applies both updates, and stops at iteration 2 with IterationLimit. -/
theorem SGDRun_demo_eval :
    SGDRun (fun x => x) constProblem constBatcher oneStepper (some ⟨1, 0⟩) 10 =
      (SGDOutcome.ok [F.fin 2] Status.IterationLimit none, some ⟨1, 0⟩) := by
  have e0 : sgdIter (fun x => x) constProblem constBatcher oneStepper
      ⟨1, 1 / 100000000⟩ ⟨0, [F.fin 0], [F.fin 0], (), ()⟩ =
      Sum.inr ⟨1, [F.fin 1], [F.fin 1], (), ()⟩ := by
    norm_num [sgdIter, constProblem, constBatcher, oneStepper, avgGradOf, normF,
      normQ, sumSq, F.isNaN, F.isInf, F.lt, F.add, F.toQ]
  have e1 : sgdIter (fun x => x) constProblem constBatcher oneStepper
      ⟨1, 1 / 100000000⟩ ⟨1, [F.fin 1], [F.fin 1], (), ()⟩ =
      Sum.inr ⟨2, [F.fin 2], [F.fin 1], (), ()⟩ := by
    norm_num [sgdIter, constProblem, constBatcher, oneStepper, avgGradOf, normF,
      normQ, sumSq, F.isNaN, F.isInf, F.lt, F.add, F.toQ]
  have e2 : sgdIter (fun x => x) constProblem constBatcher oneStepper
      ⟨1, 1 / 100000000⟩ ⟨2, [F.fin 2], [F.fin 1], (), ()⟩ =
      Sum.inl (Status.IterationLimit, [F.fin 2]) := by
    norm_num [sgdIter]
  have hset : defaultSettings ⟨1, 0⟩ = ⟨1, 1 / 100000000⟩ := by
    norm_num [defaultSettings]
  have hd : constProblem.Dim = 1 := rfl
  have hz : constProblem.Size = 1 := rfl
  have hia : oneStepper.init 1 = () := rfl
  have hib : constBatcher.init 1 = () := rfl
  simp only [SGDRun, hset, hd, hz, hia, hib, List.replicate_succ, List.replicate_zero]
  norm_num
  rw [sgdLoop_step _ _ _ _ _ _ _ _ e0, sgdLoop_step _ _ _ _ _ _ _ _ e1,
    sgdLoop_done _ _ _ _ _ _ _ _ e2]

/-- Helper: the same demonstration run under tolerance `-1` and the square-root
model constantly zero. -/
theorem SGDRun_demo_eval_negTol :
    SGDRun (fun _ => 0) constProblem constBatcher oneStepper (some ⟨1, -1⟩) 10 =
      (SGDOutcome.ok [F.fin 2] Status.IterationLimit none, some ⟨1, -1⟩) := by
  have e0 : sgdIter (fun _ => (0 : ℚ)) constProblem constBatcher oneStepper
      ⟨1, -1⟩ ⟨0, [F.fin 0], [F.fin 0], (), ()⟩ =
      Sum.inr ⟨1, [F.fin 1], [F.fin 1], (), ()⟩ := by
    norm_num [sgdIter, constProblem, constBatcher, oneStepper, avgGradOf, normF,
      normQ, sumSq, F.isNaN, F.isInf, F.lt, F.add, F.toQ]
  have e1 : sgdIter (fun _ => (0 : ℚ)) constProblem constBatcher oneStepper
      ⟨1, -1⟩ ⟨1, [F.fin 1], [F.fin 1], (), ()⟩ =
      Sum.inr ⟨2, [F.fin 2], [F.fin 1], (), ()⟩ := by
    norm_num [sgdIter, constProblem, constBatcher, oneStepper, avgGradOf, normF,
      normQ, sumSq, F.isNaN, F.isInf, F.lt, F.add, F.toQ]
  have e2 : sgdIter (fun _ => (0 : ℚ)) constProblem constBatcher oneStepper
      ⟨1, -1⟩ ⟨2, [F.fin 2], [F.fin 1], (), ()⟩ =
      Sum.inl (Status.IterationLimit, [F.fin 2]) := by
    norm_num [sgdIter]
  have hset : defaultSettings ⟨1, -1⟩ = ⟨1, -1⟩ := by
    norm_num [defaultSettings]
  have hd : constProblem.Dim = 1 := rfl
  have hz : constProblem.Size = 1 := rfl
  have hia : oneStepper.init 1 = () := rfl
  have hib : constBatcher.init 1 = () := rfl
  simp only [SGDRun, hset, hd, hz, hia, hib, List.replicate_succ, List.replicate_zero]
  norm_num
  rw [sgdLoop_step _ _ _ _ _ _ _ _ e0, sgdLoop_step _ _ _ _ _ _ _ _ e1,
    sgdLoop_done _ _ _ _ _ _ _ _ e2]

/-- C1: If the Euclidean norm of the step vector produced by `stepper.Step` is
NaN or infinite, SGD terminates immediately with status Failure (with any
remaining fuel) and the returned parameter vector equals the parameter vector
from immediately before that step: the diverging step is never added to the
parameters. Stated at an arbitrary loop state at which the iteration-limit
check does not fire (when it fires, no step is produced at all). -/
theorem sgd_failure_returns_prior_params {σ β : Type} (sq : ℚ → ℚ) (P : ProblemM)
    (B : BatcherM β) (S : StepperM σ) (set : Settings) (s : LoopState σ β) (fuel : ℕ)
    (hlim : ¬(set.Iterations ≠ 0 ∧ s.iter > set.Iterations))
    (hdiv : (normF sq (S.step s.ss s.step (avgGradOf P.Dim
        (P.Grad s.params (B.batch s.bs).2) (B.batch s.bs).2.length)).2).isNaN = true ∨
      (normF sq (S.step s.ss s.step (avgGradOf P.Dim
        (P.Grad s.params (B.batch s.bs).2) (B.batch s.bs).2.length)).2).isInf = true) :
    sgdLoop sq P B S set (fuel + 1) s = some (Status.Failure, s.params) := by
  have hiter : sgdIter sq P B S set s = Sum.inl (Status.Failure, s.params) := by
    simp only [sgdIter]
    rw [if_neg hlim]
    rcases hdiv with h | h <;> simp [h]
  simp [sgdLoop, hiter]

/-- Witness for C1: a stepper that emits NaN makes the driver loop stop at
once with Failure and the untouched zero parameter vector. -/
theorem sgd_failure_returns_prior_params_witness :
    sgdLoop (fun x => x) constProblem constBatcher nanStepper ⟨0, 0⟩ 42
      ⟨0, [F.fin 0], [F.fin 0], (), ()⟩ = some (Status.Failure, [F.fin 0]) :=
  sgd_failure_returns_prior_params (fun x => x) constProblem constBatcher nanStepper
    ⟨0, 0⟩ ⟨0, [F.fin 0], [F.fin 0], (), ()⟩ 41 (by simp) (Or.inl rfl)

/-- C2 (failing evaluation): with `Iterations = 1` and a stepper whose step is
constantly `[1]` (finite norm, never below the defaulted tolerance), the
driver performs TWO `Step` calls and parameter updates — the returned
parameters are `[2] = [0]+[1]+[1]` — before stopping with IterationLimit: the
loop guard `iter > Iterations` lets iterations `0..n` run, i.e. `n+1` stepper
calls, not the `n` the claim (and the `Iterations` doc comment) states. -/
theorem sgd_iteration_limit_off_by_one :
    SGDRun (fun x => x) constProblem constBatcher oneStepper (some ⟨1, 0⟩) 10 =
      (SGDOutcome.ok [F.fin 2] Status.IterationLimit none, some ⟨1, 0⟩) :=
  SGDRun_demo_eval

/-- C4: `StepTolerance` defaults to 1e-8 exactly when the supplied value is
zero, and for every Settings with a negative `StepTolerance` the convergence
check is disabled: SGD never returns status StepConvergence in any run with a
negative `StepTolerance` (for any square-root model nonnegative on nonnegative
inputs). -/
theorem stepTolerance_default_and_negative_disables :
    (∀ set : Settings, (defaultSettings set).StepTolerance =
        (if set.StepTolerance = 0 then 1 / 100000000 else set.StepTolerance)) ∧
    (∀ {σ β : Type} (sq : ℚ → ℚ), (∀ x, 0 ≤ x → 0 ≤ sq x) →
      ∀ (P : ProblemM) (B : BatcherM β) (S : StepperM σ) (set : Settings),
        set.StepTolerance < 0 →
        ∀ (fuel : ℕ) (X : List F) (st : Status) (err : Option String)
          (cell : Option Settings),
          SGDRun sq P B S (some set) fuel = (SGDOutcome.ok X st err, cell) →
          st ≠ Status.StepConvergence) := by
  constructor
  · intro set
    unfold defaultSettings
    split_ifs with h <;> simp [h]
  · intro σ β sq hsq P B S set hneg fuel X st err cell h
    have hne : set.StepTolerance ≠ 0 := ne_of_lt hneg
    have hset : defaultSettings set = set := by
      unfold defaultSettings; rw [if_neg hne]
    have hL := (SGDRun_ok sq P B S (some set) fuel X st err cell h).2.2
    rw [Option.getD_some, hset] at hL
    exact sgdLoop_no_stepConvergence sq hsq P B S set hneg fuel _ (st, X) hL

/-- Witness for C4: a run with tolerance `-1` that stops at the iteration
limit; the conclusion of the theorem instantiates to
`IterationLimit ≠ StepConvergence`. -/
theorem stepTolerance_negative_witness :
    ((-1 : ℚ) < 0) ∧ Status.IterationLimit ≠ Status.StepConvergence :=
  ⟨by norm_num,
    stepTolerance_default_and_negative_disables.2 (fun _ => 0) (fun x _ => le_refl 0)
      constProblem constBatcher oneStepper ⟨1, -1⟩ (by norm_num) 10 [F.fin 2]
      Status.IterationLimit none (some ⟨1, -1⟩) SGDRun_demo_eval_negTol⟩

/-- C9: Whenever SGD returns (i.e. does not panic and the loop terminated),
the returned error value is nil, for every problem, batcher, stepper and
settings: every abnormal outcome is reported through `Result.Status`, never
through a non-nil error. -/
theorem sgd_error_always_nil {σ β : Type} (sq : ℚ → ℚ) (P : ProblemM)
    (B : BatcherM β) (S : StepperM σ) (settings : Option Settings) (fuel : ℕ)
    (X : List F) (st : Status) (err : Option String) (cell : Option Settings)
    (h : SGDRun sq P B S settings fuel = (SGDOutcome.ok X st err, cell)) :
    err = none :=
  (SGDRun_ok sq P B S settings fuel X st err cell h).1

/-- Witness for C9 at a concrete run that returns normally. -/
theorem sgd_error_always_nil_witness :
    SGDRun (fun x => x) constProblem constBatcher oneStepper (some ⟨1, 0⟩) 10 =
      (SGDOutcome.ok [F.fin 2] Status.IterationLimit none, some ⟨1, 0⟩) ∧
    (none : Option String) = none :=
  ⟨SGDRun_demo_eval, sgd_error_always_nil (fun x => x) constProblem constBatcher
    oneStepper (some ⟨1, 0⟩) 10 [F.fin 2] Status.IterationLimit none (some ⟨1, 0⟩)
    SGDRun_demo_eval⟩

/-- C10: SGD never mutates the caller-supplied Settings value: defaulting of
`StepTolerance` is applied to a private copy, so the settings cell of the caller
(with both its fields) is handed back exactly as it came in, for every input
and fuel — including the panic and fuel-exhaustion outcomes. -/
theorem sgd_settings_unchanged {σ β : Type} (sq : ℚ → ℚ) (P : ProblemM)
    (B : BatcherM β) (S : StepperM σ) (settings : Option Settings) (fuel : ℕ) :
    (SGDRun sq P B S settings fuel).2 = settings := by
  cases settings with
  | none =>
    simp only [SGDRun]
    split_ifs
    · rfl
    · rfl
    · generalize sgdLoop sq P B S (defaultSettings ⟨0, 0⟩) fuel
        ⟨0, List.replicate P.Dim (F.fin 0), List.replicate P.Dim (F.fin 0),
          S.init P.Dim, B.init P.Size⟩ = L
      cases L with
      | none => rfl
      | some r => cases r; rfl
  | some set =>
    simp only [SGDRun]
    split_ifs
    · rfl
    · rfl
    · generalize sgdLoop sq P B S (defaultSettings set) fuel
        ⟨0, List.replicate P.Dim (F.fin 0), List.replicate P.Dim (F.fin 0),
          S.init P.Dim, B.init P.Size⟩ = L
      cases L with
      | none => rfl
      | some r => cases r; rfl

/-- Helper: the RandomBatch state invariant. The replacement flag, the
recorded dataset size and the length of the index buffer survive any number of
`Batch` calls, when in the no-replacement mode each call draws a permutation
of `[0, N)`. -/
theorem randomBatchRun_invariant (N : ℕ) :
    ∀ (calls : List ((ℕ → ℕ) × List ℕ)) (r : RandomBatch),
      r.Replacement = false → r.nData = N → r.idxs.length ≤ N →
      (∀ c ∈ calls, (c.2).Perm (List.range N)) →
      (randomBatchRun r calls).Replacement = false ∧
      (randomBatchRun r calls).nData = N ∧
      (randomBatchRun r calls).idxs.length = r.idxs.length := by
  intro calls
  induction calls with
  | nil => intro r h1 h2 _ _; exact ⟨h1, h2, rfl⟩
  | cons c cs ih =>
    intro r h1 h2 h3 hc
    have hpc : (c.2).length = N := by
      rw [(hc c (List.mem_cons_self c cs)).length_eq, List.length_range]
    have hlen : ((randomBatchBatch r c.1 c.2).1).idxs.length = r.idxs.length := by
      simp [randomBatchBatch, h1, withoutReplacement, List.length_take, hpc,
        Nat.min_eq_left h3]
    have h1' : ((randomBatchBatch r c.1 c.2).1).Replacement = false := by
      simp [randomBatchBatch, h1]
    have h2' : ((randomBatchBatch r c.1 c.2).1).nData = N := by
      simp [randomBatchBatch, h2]
    have hrun : randomBatchRun r (c :: cs) =
        randomBatchRun ((randomBatchBatch r c.1 c.2).1) cs := rfl
    rw [hrun]
    have hrec := ih ((randomBatchBatch r c.1 c.2).1) h1' h2'
      (by rw [hlen]; exact h3) (fun d hd => hc d (List.mem_cons_of_mem c hd))
    exact ⟨hrec.1, hrec.2.1, hrec.2.2.trans hlen⟩

/-- C8: For a RandomBatch with `Replacement = false`, after `Init(N)` with
batch size `k ≤ N`, every `Batch()` call — the call made at any state reached
from the initialized batcher by any prior sequence of `Batch()` calls —
returns a slice of exactly `k` pairwise-distinct indices, each in `[0, N)`.
The randomness of the external sampler is modelled, per call, by the
permutation of `[0, N)` induced by the random source. -/
theorem randomBatch_without_replacement (r0 : RandomBatch) (N : ℕ)
    (calls : List ((ℕ → ℕ) × List ℕ)) (draws : ℕ → ℕ) (perm : List ℕ)
    (hrep : r0.Replacement = false)
    (hcalls : ∀ c ∈ calls, (c.2).Perm (List.range N))
    (hperm : perm.Perm (List.range N)) (hk : r0.Size ≤ N) :
    ((randomBatchBatch (randomBatchRun (randomBatchInit r0 N) calls)
        draws perm).2).length = r0.Size ∧
    ((randomBatchBatch (randomBatchRun (randomBatchInit r0 N) calls)
        draws perm).2).Nodup ∧
    ∀ i ∈ (randomBatchBatch (randomBatchRun (randomBatchInit r0 N) calls)
        draws perm).2, i < N := by
  have hinit1 : (randomBatchInit r0 N).Replacement = false := by
    simp [randomBatchInit, hrep]
  have hinit2 : (randomBatchInit r0 N).nData = N := rfl
  have hinit3 : (randomBatchInit r0 N).idxs.length = r0.Size := by
    simp [randomBatchInit]
  have hinv := randomBatchRun_invariant N calls (randomBatchInit r0 N) hinit1 hinit2
    (by rw [hinit3]; exact hk) hcalls
  have hb : (randomBatchBatch (randomBatchRun (randomBatchInit r0 N) calls)
      draws perm).2 = perm.take r0.Size := by
    have hsz : (randomBatchRun (randomBatchInit r0 N) calls).idxs.length = r0.Size :=
      hinv.2.2.trans hinit3
    simp [randomBatchBatch, hinv.1, withoutReplacement, hsz]
  have hlen : perm.length = N := by rw [hperm.length_eq, List.length_range]
  have hnd : perm.Nodup := hperm.nodup_iff.2 (List.nodup_range N)
  refine ⟨?_, ?_, ?_⟩
  · rw [hb, List.length_take, hlen]
    exact Nat.min_eq_left hk
  · rw [hb]
    exact hnd.sublist (List.take_sublist r0.Size perm)
  · intro i hi
    rw [hb] at hi
    have hmem : i ∈ perm := (List.take_sublist r0.Size perm).subset hi
    exact List.mem_range.1 (hperm.mem_iff.1 hmem)

/-- Witness for C8: batch size 2 from a dataset of size 3, at the state
reached by the empty sequence of prior calls, with a concrete permutation of
`[0, 3)`. -/
theorem randomBatch_without_replacement_witness :
    ((randomBatchBatch (randomBatchRun (randomBatchInit ⟨2, false, 0, []⟩ 3) [])
        (fun _ => 0) [2, 0, 1]).2).length = 2 ∧
    ((randomBatchBatch (randomBatchRun (randomBatchInit ⟨2, false, 0, []⟩ 3) [])
        (fun _ => 0) [2, 0, 1]).2).Nodup :=
  ⟨(randomBatch_without_replacement ⟨2, false, 0, []⟩ 3 [] (fun _ => 0) [2, 0, 1]
      rfl (fun c hc => absurd hc (List.not_mem_nil c)) (by decide) (by decide)).1,
   (randomBatch_without_replacement ⟨2, false, 0, []⟩ 3 [] (fun _ => 0) [2, 0, 1]
      rfl (fun c hc => absurd hc (List.not_mem_nil c)) (by decide) (by decide)).2.1⟩

end SGD
